import Mathlib

/-!
# Verification of the GPT-2 training script

A shallow embedding, in Lean 4, of the single source file `train_gpt2.py`
of this repository, together with theorems settling the specified claims
about it.

Conventions of the embedding:
* machine floating-point arithmetic is idealised as exact rational
  arithmetic (`ℚ`); the two transcendental ingredients of attention
  (`math.sqrt` in the score scaling and `exp` inside softmax) are kept as
  explicit parameters (`scale : ℚ`, `e : ℚ → ℚ`), so every theorem proved
  about the attention layer holds for the source's actual instantiation;
* `float(-inf)` produced by `masked_fill` is represented by `Option ℚ`
  with `none` standing for `-inf`; `exp (-inf) = 0` becomes the `none`
  case of `expm` below, matching IEEE semantics used by the source;
* Python object identity (PyTorch tensor aliasing) is represented by a
  heap: a `Store` of tensor values indexed by natural-number references;
* Python runtime failures (`NameError`, `AssertionError`, `KeyError`,
  shape errors of `view`/`topk`) are represented by `Except`;
* tensors that only ever flow through the state-dict copy logic are flat:
  a shape (list of dimension sizes) plus row-major data.
-/

/-! ## Python runtime errors -/

/-- Uncaught Python exception kinds raised by the script. -/
inductive PyError where
  | nameError
  | attributeError
  | assertionError
  | keyError
  | typeError
deriving DecidableEq

/-! ## Tensors, the heap, and in-place mutation

PyTorch tensors are mutable objects; `a.weight = b.weight` makes the two
attribute slots reference the *same* tensor object, and `t.copy_(s)`
writes into `t`'s storage without changing which object any slot
references.  We therefore split a tensor-valued attribute into a
reference (`ℕ`) and the value stored at that reference in a `Store`. -/

/-- A dense tensor: `shape` is the list of dimension sizes, `data` the
row-major flat contents. -/
structure Tensor where
  shape : List ℕ
  data : List ℚ
deriving DecidableEq

/-- Row-major transposition of an `a × b` matrix stored flat: output
entry `(i, j)` (flat index `i*a + j` of the `b × a` result) is input
entry `(j, i)` (flat index `j*b + i`). -/
def transposeFlat (a b : ℕ) (d : List ℚ) : List ℚ :=
  (List.range (b * a)).map (fun n => d.getD ((n % a) * b + n / a) 0)

/-- `torch.Tensor.t()`: swaps the two axes of a 2-D tensor.  (On a 0-D or
1-D tensor `t()` is the identity; the source only ever applies it to the
2-D weights listed in `transposed`.) -/
def Tensor.t (t : Tensor) : Tensor :=
  match t.shape with
  | [a, b] => ⟨[b, a], transposeFlat a b t.data⟩
  | _ => t

/-- `tgt.copy_(src)`: in-place copy; the target keeps its own shape
metadata and receives the source's data.  (The source always asserts
shape agreement before copying.) -/
def copyInto (tgt src : Tensor) : Tensor :=
  ⟨tgt.shape, src.data⟩

/-- The heap of tensor objects: reference `r` holds the `r`-th entry. -/
abbrev Store := List Tensor

/-- Dereference: read the tensor object behind reference `r`. -/
def readRef (σ : Store) (r : ℕ) : Tensor :=
  σ.getD r ⟨[], []⟩

/-- In-place write through reference `r` (`copy_`-style mutation: the
reference itself never changes, only the value behind it). -/
def writeRef (σ : Store) (r : ℕ) (t : Tensor) : Store :=
  σ.set r t

/-! ## GPT model assembly (`GPTConfig`, `GPT.__init__`, lines 69-102) -/

/-- `GPTConfig` (source lines 69-75). -/
structure GPTConfig where
  block_size : ℕ
  vocab_size : ℕ
  n_layer : ℕ
  n_head : ℕ
  n_embd : ℕ
deriving DecidableEq

/-- The default `GPTConfig()` of the source. -/
def gptConfigDefault : GPTConfig :=
  ⟨1024, 50257, 12, 12, 768⟩

/-- The references held by the attribute slots relevant to weight tying:
`transformer.wte.weight`, `transformer.wpe.weight`, `lm_head.weight`.
(The block sub-modules own further parameters; none of them partakes in
the aliasing.) -/
structure GPTTensors where
  wteWeightRef : ℕ
  wpeWeightRef : ℕ
  lmHeadWeightRef : ℕ
deriving DecidableEq

/-- Source lines 82-88: `nn.Embedding(...)` for `wte` and `wpe` and
`nn.Linear(..., bias=False)` for `lm_head` each allocate a fresh tensor
object, so immediately after allocation the three slots hold three
distinct references (modelled as heap cells 0, 1, 2). -/
def gptAlloc : GPTTensors :=
  ⟨0, 1, 2⟩

/-- Source line 91, `self.transformer.wte.weight = self.lm_head.weight`:
Python attribute assignment rebinds the `wte.weight` slot to the very
object referenced by `lm_head.weight`. -/
def tieWeights (g : GPTTensors) : GPTTensors :=
  { g with wteWeightRef := g.lmHeadWeightRef }

/-- The module tree after lines 82-91 of `GPT.__init__`. -/
def mkGPTRefs : GPTTensors :=
  tieWeights gptAlloc

/-- Source line 94, `self.apply(_init_weights)`, as executed on the
already-assembled module tree: the bare name `_init_weights` is a `GPT`
class attribute, not a module-level binding, and Python method bodies do
not see the enclosing class scope, so evaluating the argument raises
`NameError` before `apply` visits any module — in particular before any
tensor is written. -/
def initApply (_g : GPTTensors) (_σ : Store) : Except PyError Store :=
  Except.error PyError.nameError

/-- Body of `GPT._init_weights` (source lines 96-102) as it would behave
were it ever reached: line 97 reads `isinstance(module. nn.Linear)` — a
dot where a comma was intended — so it evaluates the attribute access
`module.nn`, which raises `AttributeError` on an `nn.Module` (and even
given such an attribute, one-argument `isinstance` raises `TypeError`).
No weight is ever drawn from the 0.02-std Gaussian and no bias zeroed. -/
def initWeightsBody : Except PyError Unit :=
  Except.error PyError.attributeError

/-- `GPT.__init__` (source lines 78-94): assemble the module tree
(lines 82-88), tie the weights (line 91), then run the initialization
pass (line 94), which raises `NameError` as described at `initApply`;
the constructor therefore never returns a model object. -/
def gptInit (_cfg : GPTConfig) : Except PyError GPTTensors :=
  let g := mkGPTRefs
  match initApply g [] with
  | Except.error e => Except.error e
  | Except.ok _ => Except.ok g

/-! ## Checkpoint alignment (`GPT.from_pretrained`, lines 125-171) -/

/-- Python `str.endswith`. -/
def pyEndsWith (s suf : String) : Bool :=
  suf.data.isSuffixOf s.data

/-- Alignment failures: the `assert len(...) == len(...)` on line 158,
`KeyError` from `sd[k]` on a name absent from the model's state dict,
and the shape asserts on lines 162 and 167. -/
inductive AlignErr where
  | mismatchedKeys
  | keyError
  | shapeAssert
deriving DecidableEq

/-- Suffix excluded from the model's own key list (line 145) and from
the foreign key list (line 154): the causal-mask buffer. -/
def attnBiasSuffix : String :=
  ".attn.bias"

/-- Vendor-specific non-parameter buffer excluded from the foreign key
list (line 153). -/
def attnMaskedBiasSuffix : String :=
  ".attn.masked_bias"

/-- The four weight-name suffixes that require transposition
(source line 155). -/
def transposedSuffixes : List String :=
  ["attn.c_attn.weight", "attn.c_proj.weight", "mlp.c_fc.weight", "mlp.c_proj.weight"]

/-- `any(k.endswith(w) for w in transposed)` (line 160). -/
def isTransposedKey (k : String) : Bool :=
  transposedSuffixes.any (fun w => pyEndsWith k w)

/-- Line 145: `[k for k in sd_keys if not k.endswith('.attn.bias')]`. -/
def filterModelKeys (ks : List String) : List String :=
  ks.filter (fun k => !(pyEndsWith k attnBiasSuffix))

/-- Lines 153-154: drop `.attn.masked_bias` keys, then `.attn.bias`
keys, from the foreign key list. -/
def filterHfKeys (ks : List String) : List String :=
  (ks.filter (fun k => !(pyEndsWith k attnMaskedBiasSuffix))).filter
    (fun k => !(pyEndsWith k attnBiasSuffix))

/-- Dictionary lookup `d[k]` over an association list (a `state_dict` is
an ordered mapping from qualified name to tensor). -/
def lookupName {α : Type} (l : List (String × α)) (k : String) : Option α :=
  (l.find? (fun p => p.1 == k)).map (fun p => p.2)

/-- The body of the copy loop for one key `k` (source lines 160-169):
keys matching one of the `transposed` suffixes assert
`sd_hf[k].shape[::-1] == sd[k].shape` and copy the transposed tensor;
all other keys assert `sd_hf[k].shape == sd[k].shape` and copy directly.
A failed assert aborts the load. -/
def copyStep (k : String) (src tgt : Tensor) : Except AlignErr Tensor :=
  if isTransposedKey k then
    if src.shape.reverse = tgt.shape then
      Except.ok (copyInto tgt (Tensor.t src))
    else
      Except.error AlignErr.shapeAssert
  else
    if src.shape = tgt.shape then
      Except.ok (copyInto tgt src)
    else
      Except.error AlignErr.shapeAssert

/-- The copy loop `for k in sd_keys_hf:` (source lines 159-169).  The
model side is a mapping from qualified names to heap references `sd`
plus the heap `σ` (copies are in-place writes through the references);
the foreign side `hf` maps names to tensor values.  `sd[k]` on a name
the model does not have raises `KeyError`. -/
def alignLoop (sd : List (String × ℕ)) (hf : List (String × Tensor)) (σ : Store) :
    List String → Except AlignErr Store
  | [] => Except.ok σ
  | k :: ks =>
    match lookupName hf k with
    | none => Except.error AlignErr.keyError
    | some src =>
      match lookupName sd k with
      | none => Except.error AlignErr.keyError
      | some r =>
        match copyStep k src (readRef σ r) with
        | Except.error e => Except.error e
        | Except.ok t => alignLoop sd hf (writeRef σ r t) ks

/-- The alignment procedure of `GPT.from_pretrained` (source lines
143-169), abstracted over the two state dicts: filter both key lists,
assert equal key counts (line 158), then run the copy loop. -/
def align (sd : List (String × ℕ)) (σ : Store) (hf : List (String × Tensor)) :
    Except AlignErr Store :=
  let sdKeys := filterModelKeys (sd.map Prod.fst)
  let sdKeysHf := filterHfKeys (hf.map Prod.fst)
  if sdKeysHf.length = sdKeys.length then
    alignLoop sd hf σ sdKeysHf
  else
    Except.error AlignErr.mismatchedKeys

/-- The model types accepted by `from_pretrained` (source line 128). -/
def knownModels : List String :=
  ["gpt2", "gpt2-medium", "gpt2-large", "gpt2-xl"]

/-- The `config_args` table (source lines 132-137):
`(n_layer, n_head, n_embd)` per model type. -/
def configArgsFor (mt : String) : Option (ℕ × ℕ × ℕ) :=
  if mt = "gpt2" then some (12, 12, 768)
  else if mt = "gpt2-medium" then some (24, 16, 1024)
  else if mt = "gpt2-large" then some (36, 20, 1280)
  else if mt = "gpt2-xl" then some (48, 25, 1600)
  else none

/-- Source lines 128-141 of `from_pretrained`: the `assert model_type in
{...}` and the construction of the `GPTConfig`, with `vocab_size` forced
to 50257 (line 138) and `block_size` forced to 1024 (line 139). -/
def from_pretrained_config (mt : String) : Except PyError GPTConfig :=
  if mt ∈ knownModels then
    match configArgsFor mt with
    | some (l, h, e) => Except.ok ⟨1024, 50257, l, h, e⟩
    | none => Except.error PyError.keyError
  else
    Except.error PyError.assertionError

/-- `GPT.from_pretrained` up to the model construction on line 142:
validate the model type, build the config, then run `GPT(config)` —
which raises `NameError` (see `gptInit`), so the weight-loading code
from line 143 on is never reached. -/
def from_pretrained (mt : String) : Except PyError GPTTensors :=
  match from_pretrained_config mt with
  | Except.error e => Except.error e
  | Except.ok cfg => gptInit cfg

/-! ## SequenceLoader (`DataLoaderLite`, lines 179-205) -/

/-- Loader failure: `Tensor.view(B, T)` raises when the number of
elements differs from `B*T`. -/
inductive LoaderErr where
  | viewMismatch
deriving DecidableEq

/-- `DataLoaderLite` state: batch dims, the tokenized corpus held in
memory, and the cursor `current_position`. -/
structure DataLoaderLite where
  B : ℕ
  T : ℕ
  tokens : List ℕ
  current_position : ℕ
deriving DecidableEq

/-- `DataLoaderLite.__init__` (source lines 180-194) with the corpus
already tokenized (file reading and BPE are out-of-scope collaborators):
store `B`, `T` and the token list and set `current_position = 0`.  The
body contains no length check of any kind — it cannot fail. -/
def loaderInit (tokens : List ℕ) (B T : ℕ) : Except LoaderErr DataLoaderLite :=
  Except.ok ⟨B, T, tokens, 0⟩

/-- `DataLoaderLite.next_batch` (source lines 196-205):
`buf = tokens[pos : pos+B*T+1]`; `x = buf[:-1].view(B,T)`;
`y = buf[1:].view(B,T)`; advance the cursor by `B*T`; reset it to 0 when
the *next* read would run past the end.  The two `view` calls require
exactly `B*T` elements each and raise otherwise. -/
def next_batch (s : DataLoaderLite) : Except LoaderErr ((List ℕ × List ℕ) × DataLoaderLite) :=
  let buf := (s.tokens.drop s.current_position).take (s.B * s.T + 1)
  let x := buf.dropLast
  let y := buf.drop 1
  if x.length = s.B * s.T then
    if y.length = s.B * s.T then
      let p := s.current_position + s.B * s.T
      let p2 := if s.tokens.length < p + (s.B * s.T + 1) then 0 else p
      Except.ok ((x, y), ⟨s.B, s.T, s.tokens, p2⟩)
    else
      Except.error LoaderErr.viewMismatch
  else
    Except.error LoaderErr.viewMismatch

/-- The `[B, T]` view of a flat list: row `b`, column `t` is flat index
`b*T + t` (row-major, as `Tensor.view` lays it out). -/
def viewBT (T : ℕ) (l : List ℕ) (b t : ℕ) : ℕ :=
  l.getD (b * T + t) 0

/-- Cursor validity: the next window read starting at the cursor stays
inside the corpus. -/
def validLoader (s : DataLoaderLite) : Prop :=
  s.current_position + s.B * s.T + 1 ≤ s.tokens.length

instance (s : DataLoaderLite) : Decidable (validLoader s) := by
  unfold validLoader
  infer_instance

/-- The state after one `next_batch` call (identity on error, which
under `validLoader` never happens). -/
def stepState (s : DataLoaderLite) : DataLoaderLite :=
  match next_batch s with
  | Except.ok (_, s2) => s2
  | Except.error _ => s

/-- The state after `n` successive `next_batch` calls. -/
def runState (s : DataLoaderLite) : ℕ → DataLoaderLite
  | 0 => s
  | n + 1 => stepState (runState s n)

/-- The `x` (input window) a `next_batch` call would return. -/
def batchX (s : DataLoaderLite) : List ℕ :=
  match next_batch s with
  | Except.ok ((x, _), _) => x
  | Except.error _ => []

/-- The full contract of one `next_batch` call from a valid state, as
claimed: the call succeeds; `x` is `tokens[c : c+B*T]` and `y` is
`tokens[c+1 : c+B*T+1]`; under the `[B,T]` view `y` is `x` shifted by
one token; the cursor advances by `B*T` and resets to 0 exactly when the
next read would overrun; and from a fresh (cursor-0) state some positive
number of calls wraps the cursor back to 0 and reproduces the first
window's `x` bit-for-bit. -/
def nextBatchClaim (s : DataLoaderLite) : Prop :=
  ∃ x y s2, next_batch s = Except.ok ((x, y), s2)
    ∧ x = (s.tokens.drop s.current_position).take (s.B * s.T)
    ∧ y = (s.tokens.drop (s.current_position + 1)).take (s.B * s.T)
    ∧ (∀ b t, b < s.B → t < s.T →
        viewBT s.T x b t = s.tokens.getD (s.current_position + (b * s.T + t)) 0
        ∧ viewBT s.T y b t = s.tokens.getD (s.current_position + (b * s.T + t) + 1) 0)
    ∧ s2.B = s.B ∧ s2.T = s.T ∧ s2.tokens = s.tokens
    ∧ s2.current_position =
        (if s.tokens.length < s.current_position + s.B * s.T + (s.B * s.T + 1) then 0
         else s.current_position + s.B * s.T)
    ∧ (s.current_position = 0 → 0 < s.B * s.T →
        ∃ n, 0 < n ∧ runState s n = s ∧ batchX (runState s n) = batchX s)

/-! ## Sampler: `torch.topk` (line 274) -/

/-- `torch.topk` failure: requested `k` exceeds the size of the selected
dimension. -/
inductive TopkErr where
  | kOutOfRange
deriving DecidableEq

/-- Insert an (index, value) pair into a value-descending list, keeping
earlier (lower-index) entries first among ties. -/
def insertDesc (p : ℕ × ℚ) : List (ℕ × ℚ) → List (ℕ × ℚ)
  | [] => [p]
  | q :: rest => if q.2 < p.2 then p :: q :: rest else q :: insertDesc p rest

/-- Stable value-descending sort of (index, value) pairs. -/
def sortDesc : List (ℕ × ℚ) → List (ℕ × ℚ)
  | [] => []
  | p :: rest => insertDesc p (sortDesc rest)

/-- `torch.topk(probs, k, dim=-1)` on one row: requires `k` to be no
larger than the row length — there is no clamping; a too-large `k`
raises (`RuntimeError: selected index k out of range`).  On success it
returns the `k` largest (value, index) entries, values descending. -/
def torch_topk (probs : List ℚ) (k : ℕ) : Except TopkErr (List (ℕ × ℚ)) :=
  if k ≤ probs.length then
    Except.ok ((sortDesc probs.enum).take k)
  else
    Except.error TopkErr.kOutOfRange

/-! ## CausalSelfAttention (`CausalSelfAttention.forward`, lines 9-37)

The layer is parametrized by head count `nh` and head size `hs`; the
channel width is `C = nh * hs` (the source asserts
`n_embd % n_head == 0` on line 12, so this loses no generality).  The
batch `B`, sequence length `T` and configured `block_size` are further
parameters.  `e` abstracts `exp` (the only use the source makes of it is
inside `F.softmax`) and `scale` abstracts `1.0 / math.sqrt(head_size)`:
the causality theorem holds for every `e` and `scale`, in particular for
the source's instantiation. -/

/-- The learned parameters of one `CausalSelfAttention` over channel
width `C`: the fused qkv projection `c_attn` (a `nn.Linear(C, 3*C)` with
bias) and the output projection `c_proj` (`nn.Linear(C, C)` with bias).  -/
structure AttnParams (C : ℕ) where
  cAttnW : Fin (3 * C) → Fin C → ℚ
  cAttnB : Fin (3 * C) → ℚ
  cProjW : Fin C → Fin C → ℚ
  cProjB : Fin C → ℚ

/-- `nn.Linear`: `y = W x + b` applied to one feature vector. -/
def linearMap {m n : ℕ} (W : Fin m → Fin n → ℚ) (b : Fin m → ℚ) (v : Fin n → ℚ) :
    Fin m → ℚ :=
  fun i => (∑ j, W i j * v j) + b i

/-- `qkv = self.c_attn(x)` at batch `b`, position `t` (line 24). -/
def qkvProj {B T C : ℕ} (p : AttnParams C) (x : Fin B → Fin T → Fin C → ℚ)
    (b : Fin B) (t : Fin T) : Fin (3 * C) → ℚ :=
  linearMap p.cAttnW p.cAttnB (x b t)

/-- `q, k, v = qkv.split(self.n_embd, dim=2)` (line 25): channels
`[0, C)`, `[C, 2C)`, `[2C, 3C)` of the fused projection. -/
def qPart {B T C : ℕ} (p : AttnParams C) (x : Fin B → Fin T → Fin C → ℚ)
    (b : Fin B) (t : Fin T) (c : Fin C) : ℚ :=
  qkvProj p x b t ⟨c.val, by have := c.isLt; omega⟩

/-- Key part of the fused projection. -/
def kPart {B T C : ℕ} (p : AttnParams C) (x : Fin B → Fin T → Fin C → ℚ)
    (b : Fin B) (t : Fin T) (c : Fin C) : ℚ :=
  qkvProj p x b t ⟨C + c.val, by have := c.isLt; omega⟩

/-- Value part of the fused projection. -/
def vPart {B T C : ℕ} (p : AttnParams C) (x : Fin B → Fin T → Fin C → ℚ)
    (b : Fin B) (t : Fin T) (c : Fin C) : ℚ :=
  qkvProj p x b t ⟨2 * C + c.val, by have := c.isLt; omega⟩

/-- The channel index of slot `s` of head `h` after
`view(B, T, n_head, head_size)` (lines 26-28, row-major). -/
def headIdx {nh hs : ℕ} (h : Fin nh) (s : Fin hs) : Fin (nh * hs) :=
  ⟨h.val * hs + s.val, by
    have h1 := h.isLt
    have h2 := s.isLt
    calc h.val * hs + s.val < h.val * hs + hs := by omega
      _ = (h.val + 1) * hs := by ring
      _ ≤ nh * hs := Nat.mul_le_mul_right hs h1⟩

/-- Query of head `h` at position `t`, slot `s`. -/
def qHead {B T nh hs : ℕ} (p : AttnParams (nh * hs)) (x : Fin B → Fin T → Fin (nh * hs) → ℚ)
    (b : Fin B) (h : Fin nh) (t : Fin T) (s : Fin hs) : ℚ :=
  qPart p x b t (headIdx h s)

/-- Key of head `h` at position `t`, slot `s`. -/
def kHead {B T nh hs : ℕ} (p : AttnParams (nh * hs)) (x : Fin B → Fin T → Fin (nh * hs) → ℚ)
    (b : Fin B) (h : Fin nh) (t : Fin T) (s : Fin hs) : ℚ :=
  kPart p x b t (headIdx h s)

/-- Value of head `h` at position `t`, slot `s`. -/
def vHead {B T nh hs : ℕ} (p : AttnParams (nh * hs)) (x : Fin B → Fin T → Fin (nh * hs) → ℚ)
    (b : Fin B) (h : Fin nh) (t : Fin T) (s : Fin hs) : ℚ :=
  vPart p x b t (headIdx h s)

/-- `att = (q @ k.transpose(-2, -1)) * (1.0 / math.sqrt(k.size(-1)))`
(line 30), the raw score of query position `i` against key position `j`
in head `h`; `scale` stands for the `1/sqrt(head_size)` factor. -/
def attScore {B T nh hs : ℕ} (scale : ℚ) (p : AttnParams (nh * hs))
    (x : Fin B → Fin T → Fin (nh * hs) → ℚ) (b : Fin B) (h : Fin nh) (i j : Fin T) : ℚ :=
  (∑ s, qHead p x b h i s * kHead p x b h j s) * scale

/-- The registered buffer `torch.tril(torch.ones(block_size, block_size))`
(line 19): entry `(i, j)` is 1 on and below the diagonal, 0 above. -/
def trilOnes (_n : ℕ) (i j : ℕ) : ℚ :=
  if j ≤ i then 1 else 0

/-- `att.masked_fill(self.bias[:,:,:T,:T] == 0, float('-inf'))`
(line 31): entries where the sliced mask buffer is zero become `-inf`
(represented by `none`). -/
def maskedAtt {B T nh hs : ℕ} (bs : ℕ) (scale : ℚ) (p : AttnParams (nh * hs))
    (x : Fin B → Fin T → Fin (nh * hs) → ℚ) (b : Fin B) (h : Fin nh) (i j : Fin T) :
    Option ℚ :=
  if trilOnes bs i.val j.val = 0 then none else some (attScore scale p x b h i j)

/-- `exp` extended to `-inf` (`none`): IEEE `exp(-inf) = 0`.  The finite
case is the abstract `e`. -/
def expm (e : ℚ → ℚ) : Option ℚ → ℚ
  | none => 0
  | some r => e r

/-- `att = F.softmax(att, dim=-1)` (line 32): exponentiate each (masked)
score and normalize over the key axis.  (The numerically-stable
max-subtraction used by `F.softmax` cancels in exact arithmetic.) -/
def attWeight {B T nh hs : ℕ} (e : ℚ → ℚ) (bs : ℕ) (scale : ℚ) (p : AttnParams (nh * hs))
    (x : Fin B → Fin T → Fin (nh * hs) → ℚ) (b : Fin B) (h : Fin nh) (i j : Fin T) : ℚ :=
  expm e (maskedAtt bs scale p x b h i j) /
    ∑ j2, expm e (maskedAtt bs scale p x b h i j2)

/-- `y = att @ v` (line 33): the attention-weighted sum of values, per
head, position, and slot. -/
def headOut {B T nh hs : ℕ} (e : ℚ → ℚ) (bs : ℕ) (scale : ℚ) (p : AttnParams (nh * hs))
    (x : Fin B → Fin T → Fin (nh * hs) → ℚ) (b : Fin B) (h : Fin nh) (i : Fin T)
    (s : Fin hs) : ℚ :=
  ∑ j, attWeight e bs scale p x b h i j * vHead p x b h j s

/-- `y.transpose(1, 2).contiguous().view(B, T, C)` (line 34): channel
`c` of the merged output is slot `c % hs` of head `c / hs`. -/
def mergedOut {B T nh hs : ℕ} (e : ℚ → ℚ) (bs : ℕ) (scale : ℚ) (p : AttnParams (nh * hs))
    (x : Fin B → Fin T → Fin (nh * hs) → ℚ) (b : Fin B) (i : Fin T) (c : Fin (nh * hs)) :
    ℚ :=
  headOut e bs scale p x b
    ⟨c.val / hs, by
      have hlt := c.isLt
      exact Nat.div_lt_of_lt_mul (Nat.lt_of_lt_of_le hlt (Nat.le_of_eq (Nat.mul_comm nh hs)))⟩ i
    ⟨c.val % hs, by
      have hpos : 0 < nh * hs := Nat.lt_of_le_of_lt (Nat.zero_le _) c.isLt
      refine Nat.mod_lt _ (Nat.pos_of_ne_zero fun h0 => ?_)
      have hz : nh * hs = 0 := by rw [h0, Nat.mul_zero]
      omega⟩

/-- `CausalSelfAttention.forward` (lines 22-37): fused qkv projection,
per-head masked scaled-dot-product attention with softmax, head merge,
and the output projection `self.c_proj` (line 36). -/
def attnForward {B T nh hs : ℕ} (e : ℚ → ℚ) (bs : ℕ) (scale : ℚ) (p : AttnParams (nh * hs))
    (x : Fin B → Fin T → Fin (nh * hs) → ℚ) (b : Fin B) (t : Fin T) : Fin (nh * hs) → ℚ :=
  linearMap p.cProjW p.cProjB (mergedOut e bs scale p x b t)

/-! ## Example data used by the witness theorems -/

/-- A tiny loader state: `B = 1`, `T = 2`, five tokens, cursor 0. -/
def loaderEx : DataLoaderLite :=
  ⟨1, 2, [10, 20, 30, 40, 50], 0⟩

/-- Model-side state dict for the alignment witnesses. -/
def sdEx : List (String × ℕ) :=
  [("lm_head.weight", 2)]

/-- Foreign-side state dict for the alignment witnesses. -/
def hfEx : List (String × Tensor) :=
  [("lm_head.weight", ⟨[1], [9]⟩)]

/-- A tiny heap of three one-element tensors. -/
def storeEx : Store :=
  [⟨[1], [0]⟩, ⟨[1], [0]⟩, ⟨[1], [0]⟩]

/-- `storeEx` after the alignment witness run writes `[9]` through
reference 2. -/
def storePostEx : Store :=
  [⟨[1], [0]⟩, ⟨[1], [0]⟩, ⟨[1], [9]⟩]

/-- A tensor written through the tied reference in the witness. -/
def tEx : Tensor :=
  ⟨[1], [5]⟩

/-- Model-side state dict whose name set disagrees with `hfEx`. -/
def sdMismatchEx : List (String × ℕ) :=
  [("transformer.wte.weight", 0)]

/-- One-head, head-size-one attention parameters with all-ones weights
and zero biases. -/
def attnParamsEx : AttnParams (1 * 1) :=
  ⟨fun _ _ => 1, fun _ => 0, fun _ _ => 1, fun _ => 0⟩

/-- Witness input: value 3 at position 0, value 5 at position 1. -/
def attnInEx : Fin 1 → Fin 2 → Fin (1 * 1) → ℚ :=
  fun _ t _ => if t.val = 0 then 3 else 5

/-- Witness input agreeing with `attnInEx` at position 0 but not at the
future position 1. -/
def attnInEx2 : Fin 1 → Fin 2 → Fin (1 * 1) → ℚ :=
  fun _ t _ => if t.val = 0 then 3 else 7

/-- Source tensor (shape `[2, 3]`) for the transposed-copy witness. -/
def srcEx : Tensor :=
  ⟨[2, 3], [1, 2, 3, 4, 5, 6]⟩

/-- Target tensor (shape `[3, 2]`) for the transposed-copy witness. -/
def tgtEx : Tensor :=
  ⟨[3, 2], [0, 0, 0, 0, 0, 0]⟩

/-! # Theorems -/

/-! ## SequenceLoader lemmas -/

lemma next_batch_ok (s : DataLoaderLite) (h : validLoader s) :
    next_batch s = Except.ok
      (((s.tokens.drop s.current_position).take (s.B * s.T),
        (s.tokens.drop (s.current_position + 1)).take (s.B * s.T)),
       ⟨s.B, s.T, s.tokens,
        if s.tokens.length < s.current_position + s.B * s.T + (s.B * s.T + 1) then 0
        else s.current_position + s.B * s.T⟩) := by
  unfold validLoader at h
  have hbuf : ((s.tokens.drop s.current_position).take (s.B * s.T + 1)).length
      = s.B * s.T + 1 := by
    simp only [List.length_take, List.length_drop]
    omega
  have hx : ((s.tokens.drop s.current_position).take (s.B * s.T + 1)).dropLast
      = (s.tokens.drop s.current_position).take (s.B * s.T) := by
    rw [List.dropLast_eq_take, hbuf, List.take_take]
    congr 1
    omega
  have hy : ((s.tokens.drop s.current_position).take (s.B * s.T + 1)).drop 1
      = (s.tokens.drop (s.current_position + 1)).take (s.B * s.T) := by
    rw [List.drop_take, List.drop_drop]
    norm_num
  have hxlen : ((s.tokens.drop s.current_position).take (s.B * s.T)).length = s.B * s.T := by
    simp only [List.length_take, List.length_drop]
    omega
  have hylen : ((s.tokens.drop (s.current_position + 1)).take (s.B * s.T)).length
      = s.B * s.T := by
    simp only [List.length_take, List.length_drop]
    omega
  simp only [next_batch]
  rw [hx, hy, if_pos hxlen, if_pos hylen]

lemma getD_drop_take (l : List ℕ) (c m i : ℕ) (hi : i < m) :
    ((l.drop c).take m).getD i 0 = l.getD (c + i) 0 := by
  rw [List.getD_eq_getElem?_getD, List.getD_eq_getElem?_getD, List.getElem?_take,
    if_pos hi, List.getElem?_drop]

lemma stepState_eq (s : DataLoaderLite) (h : validLoader s) :
    stepState s = ⟨s.B, s.T, s.tokens,
      if s.tokens.length < s.current_position + s.B * s.T + (s.B * s.T + 1) then 0
      else s.current_position + s.B * s.T⟩ := by
  unfold stepState
  rw [next_batch_ok s h]

lemma valid_step (s : DataLoaderLite) (h : validLoader s) : validLoader (stepState s) := by
  rw [stepState_eq s h]
  unfold validLoader at h ⊢
  simp only
  split
  · omega
  · omega

lemma runState_succ_left (s : DataLoaderLite) (n : ℕ) :
    runState s (n + 1) = runState (stepState s) n := by
  induction n with
  | zero => rfl
  | succ n ih =>
    show stepState (runState s (n + 1)) = stepState (runState (stepState s) n)
    rw [ih]

lemma wrap_exists (m : ℕ) : ∀ (s : DataLoaderLite), validLoader s → 0 < s.B * s.T →
    s.tokens.length - s.current_position ≤ m →
    ∃ n, 0 < n ∧ runState s n = ⟨s.B, s.T, s.tokens, 0⟩ := by
  induction m with
  | zero =>
    intro s hv hbt hm
    exfalso
    unfold validLoader at hv
    omega
  | succ m ih =>
    intro s hv hbt hm
    have hstep := stepState_eq s hv
    by_cases hr : s.tokens.length < s.current_position + s.B * s.T + (s.B * s.T + 1)
    · refine ⟨1, Nat.one_pos, ?_⟩
      show stepState s = _
      rw [hstep, if_pos hr]
    · have h2 : validLoader (stepState s) := valid_step s hv
      have hfields : stepState s
          = ⟨s.B, s.T, s.tokens, s.current_position + s.B * s.T⟩ := by
        rw [hstep, if_neg hr]
      obtain ⟨n, hn, hrun⟩ := ih (stepState s) h2
        (by rw [hfields]; exact hbt)
        (by
          rw [hfields]
          simp only
          unfold validLoader at hv
          omega)
      refine ⟨n + 1, Nat.succ_pos n, ?_⟩
      rw [runState_succ_left, hrun, hfields]

lemma runState_fields (s : DataLoaderLite) (hv : validLoader s) (n : ℕ) :
    validLoader (runState s n) ∧ (runState s n).B = s.B ∧ (runState s n).T = s.T
      ∧ (runState s n).tokens = s.tokens := by
  induction n with
  | zero => exact ⟨hv, rfl, rfl, rfl⟩
  | succ n ih =>
    obtain ⟨ihv, ihB, ihT, ihTok⟩ := ih
    have hstep := stepState_eq (runState s n) ihv
    refine ⟨valid_step _ ihv, ?_, ?_, ?_⟩
    · show (stepState (runState s n)).B = s.B
      rw [hstep]
      exact ihB
    · show (stepState (runState s n)).T = s.T
      rw [hstep]
      exact ihT
    · show (stepState (runState s n)).tokens = s.tokens
      rw [hstep]
      exact ihTok

/-- C6: from every loader state whose cursor `c` satisfies
`c + B*T + 1 ≤ corpus length`, `next_batch()` succeeds and returns
`input = tokens[c : c+B*T]` and `target = tokens[c+1 : c+B*T+1]`, which
under the `[B, T]` row-major view makes the target the input shifted by
one token; it advances the cursor by `B*T` and resets it to 0 exactly
when the next read would run past the corpus end; and calling
`next_batch` enough times from a fresh state wraps the cursor back to 0
and reproduces the first window's input bit-for-bit. -/
theorem next_batch_contract (s : DataLoaderLite) (h : validLoader s) : nextBatchClaim s := by
  have hok := next_batch_ok s h
  unfold nextBatchClaim
  refine ⟨(s.tokens.drop s.current_position).take (s.B * s.T),
    (s.tokens.drop (s.current_position + 1)).take (s.B * s.T),
    ⟨s.B, s.T, s.tokens,
      if s.tokens.length < s.current_position + s.B * s.T + (s.B * s.T + 1) then 0
      else s.current_position + s.B * s.T⟩,
    hok, rfl, rfl, ?_, rfl, rfl, rfl, rfl, ?_⟩
  · intro b t hb ht
    have hbt : b * s.T + t < s.B * s.T := by
      calc b * s.T + t < b * s.T + s.T := by omega
        _ = (b + 1) * s.T := by ring
        _ ≤ s.B * s.T := Nat.mul_le_mul_right s.T (by omega)
    constructor
    · unfold viewBT
      exact getD_drop_take s.tokens s.current_position (s.B * s.T) (b * s.T + t) hbt
    · unfold viewBT
      rw [getD_drop_take s.tokens (s.current_position + 1) (s.B * s.T) (b * s.T + t) hbt]
      congr 1
      omega
  · intro hp0 hbt
    obtain ⟨n, hn, hrun⟩ := wrap_exists s.tokens.length s h hbt (by omega)
    have hss : (⟨s.B, s.T, s.tokens, 0⟩ : DataLoaderLite) = s := by
      cases s with
      | mk B T tokens cp =>
        simp only at hp0
        rw [hp0]
    refine ⟨n, hn, ?_, ?_⟩
    · rw [hrun, hss]
    · rw [hrun, hss]

/-- C6 witness: one concrete `next_batch` call on a five-token corpus
with `B = 1`, `T = 2`. -/
theorem next_batch_contract_witness : validLoader loaderEx ∧ nextBatchClaim loaderEx :=
  ⟨by decide, next_batch_contract loaderEx (by decide)⟩

/-- C7 counterexample: the claim says construction fails when the corpus
has fewer than `B*T + 1` tokens, but `DataLoaderLite.__init__` performs
no length check at all: with one token and `B*T + 1 = 5` it succeeds. -/
theorem loaderInit_short_corpus_succeeds :
    ([7] : List ℕ).length < 2 * 2 + 1 ∧ loaderInit [7] 2 2 = Except.ok ⟨2, 2, [7], 0⟩ :=
  ⟨by decide, rfl⟩

/-- C7 amended: `DataLoaderLite` construction never fails, whatever the
corpus length; when the corpus has fewer than `B*T + 1` tokens (and
`B*T > 0`), the failure surfaces only at the first `next_batch()` call,
whose `view(B, T)` raises on the short window. -/
theorem loader_construction_total (tokens : List ℕ) (B T : ℕ) :
    (∃ s, loaderInit tokens B T = Except.ok s) ∧
    (0 < B * T → tokens.length < B * T + 1 →
      ∀ s, loaderInit tokens B T = Except.ok s →
        next_batch s = Except.error LoaderErr.viewMismatch) := by
  constructor
  · exact ⟨⟨B, T, tokens, 0⟩, rfl⟩
  · intro hbt hshort s hs
    have hsval : s = ⟨B, T, tokens, 0⟩ := by
      unfold loaderInit at hs
      exact (Except.ok.injEq _ _).mp hs.symm
    subst hsval
    have hxlen : (((tokens.drop 0).take (B * T + 1)).dropLast).length ≠ B * T := by
      simp only [List.length_dropLast, List.length_take, List.length_drop]
      omega
    simp only [next_batch]
    rw [if_neg hxlen]

/-- C7 amended witness: a one-token corpus with `B = T = 2`. -/
theorem loader_construction_total_witness :
    0 < 2 * 2 ∧ ([9] : List ℕ).length < 2 * 2 + 1 ∧
    (∃ s, loaderInit [9] 2 2 = Except.ok s) ∧
    (∀ s, loaderInit [9] 2 2 = Except.ok s →
      next_batch s = Except.error LoaderErr.viewMismatch) :=
  ⟨by decide, by decide, (loader_construction_total [9] 2 2).1,
    (loader_construction_total [9] 2 2).2 (by decide) (by decide)⟩

/-- C9: if the corpus has at least `B*T + 1` tokens then after
construction and after any number of `next_batch()` calls the cursor `c`
satisfies `c + B*T + 1 ≤ corpus length`, and the next call returns full
`B*T`-element input and target windows (the slice never truncates). -/
theorem loader_cursor_invariant (tokens : List ℕ) (B T : ℕ)
    (h : B * T + 1 ≤ tokens.length) (s0 : DataLoaderLite)
    (hinit : loaderInit tokens B T = Except.ok s0) (n : ℕ) :
    validLoader (runState s0 n) ∧
    ∃ x y s2, next_batch (runState s0 n) = Except.ok ((x, y), s2)
      ∧ x.length = B * T ∧ y.length = B * T := by
  have hs0 : s0 = ⟨B, T, tokens, 0⟩ := by
    unfold loaderInit at hinit
    exact (Except.ok.injEq _ _).mp hinit.symm
  subst hs0
  have hv0 : validLoader ⟨B, T, tokens, 0⟩ := by
    unfold validLoader
    simpa using h
  obtain ⟨hv, hB, hT, hTok⟩ := runState_fields ⟨B, T, tokens, 0⟩ hv0 n
  refine ⟨hv, ?_⟩
  have hok := next_batch_ok (runState ⟨B, T, tokens, 0⟩ n) hv
  refine ⟨_, _, _, hok, ?_, ?_⟩
  · unfold validLoader at hv
    rw [hB, hT, hTok] at hv
    simp only [List.length_take, List.length_drop]
    rw [hB, hT, hTok]
    dsimp only at hv ⊢
    omega
  · unfold validLoader at hv
    rw [hB, hT, hTok] at hv
    simp only [List.length_take, List.length_drop]
    rw [hB, hT, hTok]
    dsimp only at hv ⊢
    omega

/-- C9 witness: a three-token corpus with `B = T = 1`, checked after two
calls (one of which wraps the cursor). -/
theorem loader_cursor_invariant_witness :
    1 * 1 + 1 ≤ ([3, 4, 5] : List ℕ).length ∧
    loaderInit [3, 4, 5] 1 1 = Except.ok ⟨1, 1, [3, 4, 5], 0⟩ ∧
    (validLoader (runState ⟨1, 1, [3, 4, 5], 0⟩ 2) ∧
      ∃ x y s2, next_batch (runState ⟨1, 1, [3, 4, 5], 0⟩ 2) = Except.ok ((x, y), s2)
        ∧ x.length = 1 * 1 ∧ y.length = 1 * 1) :=
  ⟨by decide, rfl,
    loader_cursor_invariant [3, 4, 5] 1 1 (by decide) ⟨1, 1, [3, 4, 5], 0⟩ rfl 2⟩

/-! ## Model construction and `from_pretrained` -/

/-- C1: the claim says the initialization pass runs once at construction
and draws every weight from a 0.02-std Gaussian; in the source,
`GPT.__init__` line 94 calls `self.apply(_init_weights)` where the bare
name `_init_weights` is unbound at module scope (and line 97 additionally
misspells `isinstance(module, nn.Linear)` as `isinstance(module. nn.Linear)`),
so construction raises `NameError` for every config and the
initialization pass never runs at all. -/
theorem gpt_construction_raises (cfg : GPTConfig) :
    gptInit cfg = Except.error PyError.nameError :=
  rfl

/-- C10: `from_pretrained` asserts membership of `model_type` in the
fixed four-element set; for members it builds a `GPTConfig` with
`vocab_size = 50257` and `block_size = 1024` regardless of caller input,
but the subsequent `GPT(config)` call raises `NameError` (the C1 slip),
so no model is ever constructed. -/
theorem from_pretrained_contract (mt : String) :
    (mt ∉ knownModels → from_pretrained mt = Except.error PyError.assertionError) ∧
    (mt ∈ knownModels → ∃ cfg, from_pretrained_config mt = Except.ok cfg
      ∧ cfg.vocab_size = 50257 ∧ cfg.block_size = 1024
      ∧ from_pretrained mt = Except.error PyError.nameError) := by
  constructor
  · intro hout
    have h1 : from_pretrained_config mt = Except.error PyError.assertionError := by
      unfold from_pretrained_config
      rw [if_neg hout]
    unfold from_pretrained
    rw [h1]
  · intro hin
    have hcases : mt = "gpt2" ∨ mt = "gpt2-medium" ∨ mt = "gpt2-large" ∨ mt = "gpt2-xl" := by
      simpa [knownModels] using hin
    rcases hcases with h | h | h | h <;> subst h
    · exact ⟨⟨1024, 50257, 12, 12, 768⟩, rfl, rfl, rfl, rfl⟩
    · exact ⟨⟨1024, 50257, 24, 16, 1024⟩, rfl, rfl, rfl, rfl⟩
    · exact ⟨⟨1024, 50257, 36, 20, 1280⟩, rfl, rfl, rfl, rfl⟩
    · exact ⟨⟨1024, 50257, 48, 25, 1600⟩, rfl, rfl, rfl, rfl⟩

/-- C10 witness: the concrete model type `'gpt2'`. -/
theorem from_pretrained_contract_witness :
    ("gpt2") ∈ knownModels ∧
    (∃ cfg, from_pretrained_config ("gpt2") = Except.ok cfg
      ∧ cfg.vocab_size = 50257 ∧ cfg.block_size = 1024
      ∧ from_pretrained ("gpt2") = Except.error PyError.nameError) :=
  ⟨by decide, (from_pretrained_contract ("gpt2")).2 (by decide)⟩

/-! ## Sampler: top-k -/

/-- C8 counterexample: the claim says a requested top-k of 50 over a
32-element distribution is clamped to the vocabulary size and sampling
proceeds; the source calls `torch.topk(probs, 50, dim=-1)` unguarded,
and `torch.topk` raises when `k` exceeds the dimension size. -/
theorem topk_50_over_32_fails :
    torch_topk (List.replicate 32 ((1 : ℚ) / 32)) 50 = Except.error TopkErr.kOutOfRange := by
  rfl

lemma length_insertDesc (p : ℕ × ℚ) (l : List (ℕ × ℚ)) :
    (insertDesc p l).length = l.length + 1 := by
  induction l with
  | nil => rfl
  | cons q rest ih =>
    unfold insertDesc
    split
    · simp
    · simp [ih]

lemma length_sortDesc (l : List (ℕ × ℚ)) : (sortDesc l).length = l.length := by
  induction l with
  | nil => rfl
  | cons p rest ih =>
    unfold sortDesc
    rw [length_insertDesc, ih, List.length_cons]

/-- C8 amended: `torch.topk(probs, k)` performs no clamping: it fails
with an out-of-range error whenever `k` exceeds the size of the last
axis, and succeeds (returning exactly `k` entries) only when
`k ≤ size`. -/
theorem topk_requires_k_le_size (probs : List ℚ) (k : ℕ) :
    (probs.length < k → torch_topk probs k = Except.error TopkErr.kOutOfRange) ∧
    (k ≤ probs.length → ∃ l, torch_topk probs k = Except.ok l ∧ l.length = k) := by
  constructor
  · intro hk
    unfold torch_topk
    rw [if_neg (by omega)]
  · intro hk
    refine ⟨(sortDesc probs.enum).take k, ?_, ?_⟩
    · unfold torch_topk
      rw [if_pos hk]
    · rw [List.length_take, length_sortDesc, List.enum_length]
      omega

/-- C8 amended witness: `k = 50` over a 32-element distribution fails;
`k = 32` over the same distribution succeeds with 32 entries. -/
theorem topk_requires_k_le_size_witness :
    (List.replicate 32 ((1 : ℚ) / 32)).length < 50 ∧
    torch_topk (List.replicate 32 ((1 : ℚ) / 32)) 50 = Except.error TopkErr.kOutOfRange :=
  ⟨by decide, (topk_requires_k_le_size (List.replicate 32 ((1 : ℚ) / 32)) 50).1 (by decide)⟩

/-! ## Checkpoint alignment -/

lemma lookupName_some_mem {α : Type} (l : List (String × α)) (k : String) (a : α)
    (h : lookupName l k = some a) : k ∈ l.map Prod.fst := by
  unfold lookupName at h
  rcases hf : l.find? (fun p => p.1 == k) with _ | p
  · rw [hf] at h
    simp at h
  · have hp := List.find?_some hf
    have hmem := List.mem_of_find?_eq_some hf
    have hk : p.1 = k := by simpa using hp
    rw [← hk]
    exact List.mem_map_of_mem Prod.fst hmem

lemma alignLoop_error_of_missing (sd : List (String × ℕ)) (hf : List (String × Tensor))
    (k : String) (hmiss : lookupName sd k = none) :
    ∀ (ks : List String) (σ : Store), k ∈ ks → ∃ e, alignLoop sd hf σ ks = Except.error e := by
  intro ks
  induction ks with
  | nil =>
    intro σ hk
    simp at hk
  | cons k0 ks ih =>
    intro σ hk
    unfold alignLoop
    split
    · exact ⟨AlignErr.keyError, rfl⟩
    · rename_i src hhf
      split
      · exact ⟨AlignErr.keyError, rfl⟩
      · rename_i r hsd
        split
        · rename_i e2 hcs
          exact ⟨e2, rfl⟩
        · rename_i t hcs
          have hne : k ≠ k0 := by
            intro he
            rw [he, hsd] at hmiss
            exact Option.noConfusion hmiss
          have hk2 : k ∈ ks := by
            rcases List.mem_cons.mp hk with h | h
            · exact absurd h hne
            · exact h
          exact ih (writeRef σ r t) hk2

/-- C4: the alignment procedure of `from_pretrained` fails whenever the
foreign and model parameter-name sets (each after excluding the
causal-mask and vendor buffers) differ: if the filtered key counts
differ the `assert len == len` fires, and if the counts agree but the
name sets differ the copy loop hits a foreign key absent from the
model's state dict and raises `KeyError` (or aborts even earlier on a
shape assert) — in every case a fatal error, never a silent partial
load. -/
theorem align_name_mismatch_fails (sd : List (String × ℕ)) (σ : Store)
    (hf : List (String × Tensor))
    (hnd : (filterHfKeys (hf.map Prod.fst)).Nodup)
    (hne : (filterHfKeys (hf.map Prod.fst)).toFinset
      ≠ (filterModelKeys (sd.map Prod.fst)).toFinset) :
    ∃ e, align sd σ hf = Except.error e := by
  by_cases hlen : (filterHfKeys (hf.map Prod.fst)).length
      = (filterModelKeys (sd.map Prod.fst)).length
  · have hbad : ∃ k, k ∈ filterHfKeys (hf.map Prod.fst)
        ∧ k ∉ filterModelKeys (sd.map Prod.fst) := by
      by_contra hno
      push_neg at hno
      have hsub : (filterHfKeys (hf.map Prod.fst)).toFinset
          ⊆ (filterModelKeys (sd.map Prod.fst)).toFinset := by
        intro a ha
        rw [List.mem_toFinset] at ha ⊢
        exact hno a ha
      have hcard : (filterHfKeys (hf.map Prod.fst)).toFinset.card
          < (filterModelKeys (sd.map Prod.fst)).toFinset.card :=
        Finset.card_lt_card (Finset.ssubset_iff_subset_ne.mpr ⟨hsub, hne⟩)
      have h1 : (filterHfKeys (hf.map Prod.fst)).toFinset.card
          = (filterHfKeys (hf.map Prod.fst)).length := List.toFinset_card_of_nodup hnd
      have h2 : (filterModelKeys (sd.map Prod.fst)).toFinset.card
          ≤ (filterModelKeys (sd.map Prod.fst)).length :=
        List.toFinset_card_le (filterModelKeys (sd.map Prod.fst))
      omega
    obtain ⟨k, hkmem, hknot⟩ := hbad
    have hnotbias : pyEndsWith k attnBiasSuffix = false := by
      unfold filterHfKeys at hkmem
      have hb := (List.mem_filter.mp hkmem).2
      simpa using hb
    have hmiss : lookupName sd k = none := by
      rcases hl : lookupName sd k with _ | r
      · rfl
      · exfalso
        have hmem := lookupName_some_mem sd k r hl
        refine hknot ?_
        unfold filterModelKeys
        refine List.mem_filter.mpr ⟨hmem, ?_⟩
        simp [hnotbias]
    obtain ⟨e, he⟩ :=
      alignLoop_error_of_missing sd hf k hmiss (filterHfKeys (hf.map Prod.fst)) σ hkmem
    refine ⟨e, ?_⟩
    unfold align
    rw [if_pos hlen]
    exact he
  · refine ⟨AlignErr.mismatchedKeys, ?_⟩
    unfold align
    rw [if_neg hlen]

/-- C4 witness: equal key counts (one each) but different names. -/
theorem align_name_mismatch_witness :
    (filterHfKeys (hfEx.map Prod.fst)).Nodup ∧
    (filterHfKeys (hfEx.map Prod.fst)).toFinset
      ≠ (filterModelKeys (sdMismatchEx.map Prod.fst)).toFinset ∧
    ∃ e, align sdMismatchEx storeEx hfEx = Except.error e :=
  ⟨by decide, by decide, align_name_mismatch_fails sdMismatchEx storeEx hfEx (by decide) (by decide)⟩

lemma transposeFlat_getD (a b : ℕ) (d : List ℚ) (i j : ℕ) (hi : i < b) (hj : j < a) :
    (transposeFlat a b d).getD (i * a + j) 0 = d.getD (j * b + i) 0 := by
  unfold transposeFlat
  have hn : i * a + j < b * a := by
    calc i * a + j < i * a + a := by omega
      _ = (i + 1) * a := by ring
      _ ≤ b * a := Nat.mul_le_mul_right a (by omega)
  rw [List.getD_eq_getElem?_getD, List.getElem?_map, List.getElem?_range hn]
  have hmod : (i * a + j) % a = j := by
    rw [Nat.add_comm, Nat.add_mul_mod_self_right]
    exact Nat.mod_eq_of_lt hj
  have hdiv : (i * a + j) / a = i := by
    have ha : 0 < a := by omega
    rw [Nat.add_comm, Nat.add_mul_div_right _ _ ha, Nat.div_eq_of_lt hj]
    omega
  simp [hmod, hdiv]

/-- C5: one step of the checkpoint copy loop: for a key carrying one of
the four `transposed` suffixes the copy succeeds exactly when the source
shape is the reverse of the target shape, and then stores the transposed
tensor (entry `(i, j)` of the result is entry `(j, i)` of the source);
for every other key it succeeds exactly when the shapes are equal and
stores the source data unchanged; every shape mismatch is a fatal
`AssertionError`, never a silent coercion. -/
theorem copyStep_shape_contract (k : String) (src tgt : Tensor) :
    (isTransposedKey k = true →
      ((∃ out, copyStep k src tgt = Except.ok out) ↔ src.shape.reverse = tgt.shape) ∧
      (src.shape.reverse = tgt.shape →
        copyStep k src tgt = Except.ok (copyInto tgt (Tensor.t src))) ∧
      (src.shape.reverse ≠ tgt.shape →
        copyStep k src tgt = Except.error AlignErr.shapeAssert)) ∧
    (isTransposedKey k = false →
      ((∃ out, copyStep k src tgt = Except.ok out) ↔ src.shape = tgt.shape) ∧
      (src.shape = tgt.shape → copyStep k src tgt = Except.ok (copyInto tgt src)) ∧
      (src.shape ≠ tgt.shape → copyStep k src tgt = Except.error AlignErr.shapeAssert)) ∧
    (∀ a b, src.shape = [a, b] →
      ∀ out, copyStep k src tgt = Except.ok out → isTransposedKey k = true →
        ∀ i j, i < b → j < a →
          out.data.getD (i * a + j) 0 = src.data.getD (j * b + i) 0) := by
  refine ⟨?_, ?_, ?_⟩
  · intro ht
    unfold copyStep
    rw [ht]
    simp only [if_true]
    by_cases hs : src.shape.reverse = tgt.shape
    · rw [if_pos hs]
      exact ⟨⟨fun _ => hs, fun _ => ⟨_, rfl⟩⟩, fun _ => rfl, fun hn => absurd hs hn⟩
    · rw [if_neg hs]
      refine ⟨⟨fun hex => ?_, fun h => absurd h hs⟩, fun h => absurd h hs, fun _ => rfl⟩
      obtain ⟨out, hout⟩ := hex
      exact Except.noConfusion hout
  · intro ht
    unfold copyStep
    rw [ht]
    simp only [Bool.false_eq_true, if_false]
    by_cases hs : src.shape = tgt.shape
    · rw [if_pos hs]
      exact ⟨⟨fun _ => hs, fun _ => ⟨_, rfl⟩⟩, fun _ => rfl, fun hn => absurd hs hn⟩
    · rw [if_neg hs]
      refine ⟨⟨fun hex => ?_, fun h => absurd h hs⟩, fun h => absurd h hs, fun _ => rfl⟩
      obtain ⟨out, hout⟩ := hex
      exact Except.noConfusion hout
  · intro a b hshape out hout ht i j hi hj
    obtain ⟨sshape, sdata⟩ := src
    simp only at hshape
    subst hshape
    unfold copyStep at hout
    rw [ht] at hout
    simp only [if_true] at hout
    by_cases hs : (Tensor.mk [a, b] sdata).shape.reverse = tgt.shape
    · rw [if_pos hs] at hout
      have hout2 : out = copyInto tgt (Tensor.t ⟨[a, b], sdata⟩) :=
        (Except.ok.injEq _ _).mp hout.symm
      subst hout2
      show (transposeFlat a b sdata).getD (i * a + j) 0 = sdata.getD (j * b + i) 0
      exact transposeFlat_getD a b sdata i j hi hj
    · rw [if_neg hs] at hout
      exact Except.noConfusion hout

/-- C5 witness: the key `'attn.c_attn.weight'` with a `[2,3]` source and
`[3,2]` target: the copy succeeds and entry `(1, 0)` of the result is
entry `(0, 1)` of the source. -/
theorem copyStep_shape_contract_witness :
    isTransposedKey ("attn.c_attn.weight") = true ∧
    srcEx.shape = [2, 3] ∧
    (∀ out, copyStep ("attn.c_attn.weight") srcEx tgtEx = Except.ok out →
      out.data.getD (1 * 2 + 0) 0 = srcEx.data.getD (0 * 3 + 1) 0) :=
  ⟨by decide, by decide,
    fun out hout =>
      (copyStep_shape_contract ("attn.c_attn.weight") srcEx tgtEx).2.2 2 3 (by decide)
        out hout (by decide) 1 0 (by decide) (by decide)⟩

/-! ## Weight tying -/

lemma readRef_writeRef_self (σ : Store) (r : ℕ) (t : Tensor) (h : r < σ.length) :
    readRef (writeRef σ r t) r = t := by
  unfold readRef writeRef
  simp [List.getD_eq_getElem?_getD, List.getElem?_set, h]

/-- C3: weight tying.  After the module assembly of `GPT.__init__` the
`transformer.wte.weight` slot and the `lm_head.weight` slot hold the
same tensor reference (line 91), so an in-place mutation through either
slot is observable through the other; the initialization pass raises
before writing any tensor (so it cannot desynchronize the pair), and the
checkpoint-alignment copy loop mutates tensors only in place through the
state-dict references (`copy_`), so after any successful alignment the
two slots still dereference to the same value. -/
theorem weight_tying_invariant :
    mkGPTRefs.wteWeightRef = mkGPTRefs.lmHeadWeightRef
    ∧ (∀ (σ : Store) (t : Tensor), mkGPTRefs.lmHeadWeightRef < σ.length →
        readRef (writeRef σ mkGPTRefs.lmHeadWeightRef t) mkGPTRefs.wteWeightRef = t
        ∧ readRef (writeRef σ mkGPTRefs.wteWeightRef t) mkGPTRefs.lmHeadWeightRef = t)
    ∧ (∀ g σ, initApply g σ = Except.error PyError.nameError)
    ∧ (∀ sd hf σ σ2, align sd σ hf = Except.ok σ2 →
        readRef σ2 mkGPTRefs.wteWeightRef = readRef σ2 mkGPTRefs.lmHeadWeightRef) := by
  refine ⟨rfl, ?_, fun _ _ => rfl, ?_⟩
  · intro σ t h
    constructor
    · exact readRef_writeRef_self σ mkGPTRefs.lmHeadWeightRef t h
    · exact readRef_writeRef_self σ mkGPTRefs.lmHeadWeightRef t h
  · intro sd hf σ σ2 _
    rfl

/-- C3 witness: a concrete three-cell heap; a write through the
`lm_head.weight` reference is read back through the `wte.weight`
reference, and a concrete successful alignment run leaves the two slots
dereferencing to the same value. -/
theorem weight_tying_invariant_witness :
    mkGPTRefs.lmHeadWeightRef < storeEx.length
    ∧ readRef (writeRef storeEx mkGPTRefs.lmHeadWeightRef tEx) mkGPTRefs.wteWeightRef = tEx
    ∧ align sdEx storeEx hfEx = Except.ok storePostEx
    ∧ readRef storePostEx mkGPTRefs.wteWeightRef = readRef storePostEx mkGPTRefs.lmHeadWeightRef :=
  ⟨by decide, (weight_tying_invariant.2.1 storeEx tEx (by decide)).1, rfl,
    weight_tying_invariant.2.2.2 sdEx hfEx storeEx storePostEx rfl⟩

/-! ## Causal self-attention -/

/-- C2: mask correctness.  For any batch size, any `T ≤ block_size`, any
parameters, any softmax exponential `e` and any score scale (covering the
source's `exp` and `1/sqrt(head_size)`), two inputs that agree at every
position `t ≤ i` produce identical `CausalSelfAttention.forward` outputs
at position `i`: the output at a position is invariant under arbitrary
changes of the input at strictly later positions. -/
theorem attn_causal {B T nh hs : ℕ} (e : ℚ → ℚ) (bs : ℕ) (scale : ℚ)
    (p : AttnParams (nh * hs)) (x x2 : Fin B → Fin T → Fin (nh * hs) → ℚ)
    (i : Fin T) (hT : T ≤ bs)
    (hagree : ∀ (b : Fin B) (t : Fin T), t.val ≤ i.val → ∀ c, x b t c = x2 b t c) :
    ∀ (b : Fin B) (c : Fin (nh * hs)),
      attnForward e bs scale p x b i c = attnForward e bs scale p x2 b i c := by
  intro b c
  have hqkv : ∀ (t : Fin T), t.val ≤ i.val → qkvProj p x b t = qkvProj p x2 b t := by
    intro t ht
    unfold qkvProj
    rw [funext (hagree b t ht)]
  have hmask : ∀ (h : Fin nh) (j : Fin T),
      maskedAtt bs scale p x b h i j = maskedAtt bs scale p x2 b h i j := by
    intro h j
    unfold maskedAtt
    by_cases hc : trilOnes bs i.val j.val = 0
    · rw [if_pos hc, if_pos hc]
    · rw [if_neg hc, if_neg hc]
      have hji : j.val ≤ i.val := by
        unfold trilOnes at hc
        by_cases hji : j.val ≤ i.val
        · exact hji
        · rw [if_neg hji] at hc
          exact absurd rfl hc
      congr 1
      unfold attScore
      congr 1
      refine Finset.sum_congr rfl fun s _ => ?_
      unfold qHead kHead qPart kPart
      rw [hqkv i (le_refl i.val), hqkv j hji]
  have hw : ∀ (h : Fin nh) (j : Fin T),
      attWeight e bs scale p x b h i j = attWeight e bs scale p x2 b h i j := by
    intro h j
    unfold attWeight
    rw [hmask h j]
    congr 1
    refine Finset.sum_congr rfl fun j2 _ => ?_
    rw [hmask h j2]
  have hzero : ∀ (h : Fin nh) (j : Fin T), ¬ j.val ≤ i.val →
      attWeight e bs scale p x b h i j = 0 ∧ attWeight e bs scale p x2 b h i j = 0 := by
    intro h j hji
    have hm : trilOnes bs i.val j.val = 0 := by
      unfold trilOnes
      rw [if_neg hji]
    constructor
    · unfold attWeight
      rw [show maskedAtt bs scale p x b h i j = none by unfold maskedAtt; rw [if_pos hm]]
      show expm e none / _ = 0
      rw [show expm e none = 0 from rfl]
      exact zero_div _
    · unfold attWeight
      rw [show maskedAtt bs scale p x2 b h i j = none by unfold maskedAtt; rw [if_pos hm]]
      show expm e none / _ = 0
      rw [show expm e none = 0 from rfl]
      exact zero_div _
  have hv : ∀ (h : Fin nh) (j : Fin T) (s : Fin hs), j.val ≤ i.val →
      vHead p x b h j s = vHead p x2 b h j s := by
    intro h j s hji
    unfold vHead vPart
    rw [hqkv j hji]
  have hho : ∀ (h : Fin nh) (s : Fin hs),
      headOut e bs scale p x b h i s = headOut e bs scale p x2 b h i s := by
    intro h s
    unfold headOut
    refine Finset.sum_congr rfl fun j _ => ?_
    by_cases hji : j.val ≤ i.val
    · rw [hw h j, hv h j s hji]
    · obtain ⟨h1, h2⟩ := hzero h j hji
      rw [h1, h2, zero_mul, zero_mul]
  have hm2 : mergedOut e bs scale p x b i = mergedOut e bs scale p x2 b i := by
    funext c2
    unfold mergedOut
    exact hho _ _
  unfold attnForward
  rw [hm2]

/-- C2 witness: one head of size one over two positions; the two inputs
agree at position 0 and differ at the future position 1; the attention
outputs at position 0 coincide. -/
theorem attn_causal_witness :
    (2 ≤ 2)
    ∧ (∀ (b : Fin 1) (t : Fin 2), t.val ≤ (⟨0, by omega⟩ : Fin 2).val →
        ∀ c, attnInEx b t c = attnInEx2 b t c)
    ∧ attnForward (fun r => r + 1) 2 1 attnParamsEx attnInEx ⟨0, by omega⟩ ⟨0, by omega⟩
        ⟨0, by omega⟩
      = attnForward (fun r => r + 1) 2 1 attnParamsEx attnInEx2 ⟨0, by omega⟩ ⟨0, by omega⟩
        ⟨0, by omega⟩ :=
  ⟨by omega, by decide,
    attn_causal (fun r => r + 1) 2 1 attnParamsEx attnInEx attnInEx2 ⟨0, by omega⟩
      (by omega) (by decide) ⟨0, by omega⟩ ⟨0, by omega⟩⟩
